import Mathlib

/-!
# AiPodcast webhook pipeline — verification development

Shallow embedding of the four webhook stage handlers (`receive`, `process`,
`approve`, `download`) of the AiPodcast repository, together with the
MinIO artifact-store helper `uploadToMinIOStorage` of the approve route.

External effects (the generation provider, the MinIO client library, the
WHATWG URL parser, `Date.now()`, `Math.random()`, the file system) are
passed in explicitly as oracle values; everything the repository's own code
computes is embedded as executable Lean functions.

JavaScript conventions preserved by the embedding:
* an environment variable is `Option String`; `x || d` treats `none` and
  `some ""` as falsy (`envOr`), `x ?? d` only treats `none` as missing;
* `String.prototype.includes` is `strContains`, `endsWith` is `endsWithStr`;
* `parseInt` on a digit string is `parseIntJS` (`none` models `NaN`);
* a JS number interpolated into a template literal prints its decimal
  representation; `NaN` prints `"NaN"` (`portString`).
-/

namespace AiPodcast

/-- JS truthiness default `v || d` for an environment variable:
`undefined` and the empty string both fall back to the default. -/
def envOr (v : Option String) (d : String) : String :=
  match v with
  | none => d
  | some s => if s = "" then d else s

/-- `!process.env.X` for an environment variable: true when the variable is
absent or the empty string. -/
def isFalsyEnv (v : Option String) : Bool :=
  match v with
  | none => true
  | some s => s = ""

/-- `hay.includes(needle)` of JS: some index of `hay` starts the whole
`needle`. -/
def strContains (hay needle : String) : Bool :=
  (List.range (hay.data.length + 1)).any
    (fun i => (hay.data.drop i).take needle.data.length == needle.data)

/-- `s.endsWith(suffix)` of JS. -/
def endsWithStr (s suf : String) : Bool :=
  decide (suf.data.length ≤ s.data.length) &&
    (s.data.drop (s.data.length - suf.data.length) == suf.data)

/-- ASCII decimal digit. -/
def isDigitChar (c : Char) : Bool :=
  '0' ≤ c && c ≤ '9'

/-- Character of a base-36 fractional expansion produced by
`Math.random().toString(36)`: a decimal digit or a lowercase latin letter. -/
def isBase36Char (c : Char) : Bool :=
  isDigitChar c || ('a' ≤ c && c ≤ 'z')

/-- Value of a non-empty list of decimal digit characters. -/
def digitsVal (ds : List Char) : Nat :=
  ds.foldl (fun a c => a * 10 + (c.toNat - 48)) 0

/-- `parseInt` of JS restricted to the shapes that occur here: leading
decimal digits give the value, no leading digit gives `NaN` (`none`). -/
def parseIntJS (s : String) : Option Nat :=
  let ds := s.data.takeWhile isDigitChar
  if ds.isEmpty then none else some (digitsVal ds)

/-- A character kept by the sanitizer `/[^a-z0-9]/gi` replacement: ASCII
letters of either case and digits stay, everything else becomes `'_'`. -/
def sanitizeChar (c : Char) : Char :=
  if ('a' ≤ c && c ≤ 'z') || ('A' ≤ c && c ≤ 'Z') || ('0' ≤ c && c ≤ '9')
  then c else '_'

/-- `title.replace(/[^a-z0-9]/gi, '_').substring(0, 50)` of the approve
route: per-character replacement, then the first 50 characters. -/
def sanitizeTitle (t : String) : String :=
  ⟨(t.data.map sanitizeChar).take 50⟩

/-- A character a sanitized slug may contain: alphanumeric or underscore. -/
def isSlugChar (c : Char) : Bool :=
  ('a' ≤ c && c ≤ 'z') || ('A' ≤ c && c ≤ 'Z') || ('0' ≤ c && c ≤ '9') ||
    c = '_'

/-- `` `${safeTitle}_${jobId}.mp3` `` — the artifact filename derived from a
title and a job id, shared by the local save and the MinIO upload. -/
def minioFilename (title jobId : String) : String :=
  sanitizeTitle title ++ "_" ++ jobId ++ ".mp3"

/-- Environment variables consumed by the webhook routes. -/
structure Env where
  appUrl : Option String
  openRouterKey : Option String
  openaiKey : Option String
  minioAccessKey : Option String
  minioSecretKey : Option String
  minioEndpoint : Option String
  minioPort : Option String
  minioUseSSL : Option String
  minioBucket : Option String
deriving DecidableEq

/-- `` `${process.env.NEXT_PUBLIC_APP_URL || 'http://localhost:3000'}/api/webhook/download/${jobId}` `` -/
def localDownloadUrl (env : Env) (jobId : String) : String :=
  envOr env.appUrl "http://localhost:3000" ++ "/api/webhook/download/" ++ jobId

/-- Result of a successful `new URL(endpoint)`: the WHATWG components the
route reads.  `port = none` models the empty `url.port` string (no explicit
port in the URL); `some p` models `parseInt(url.port)`. -/
structure ParsedUrl where
  protocol : String
  hostname : String
  port : Option Nat
deriving DecidableEq

/-- Resolved connection parameters for the MinIO client.  `port = none`
models a `NaN` port (unparsable `MINIO_PORT`). -/
structure StorageTarget where
  endPoint : String
  port : Option Nat
  useSSL : Bool
deriving DecidableEq

/-- Storage-target resolution of `uploadToMinIOStorage` (approve route,
lines 127–144): endpoint/port/TLS from the environment, then, when the
endpoint contains `"://"`, overridden by the parsed URL (`parsed` is the
oracle outcome of `new URL(endPoint)`, `none` when the constructor throws);
otherwise TLS is forced on when the port equals 443. -/
def resolveTarget (endpointEnv portEnv sslEnv : Option String)
    (parsed : Option ParsedUrl) : StorageTarget :=
  let ep0 := envOr endpointEnv "minio2-api.aihub.ovh"
  let port0 := parseIntJS (envOr portEnv "443")
  let ssl0 := sslEnv == some "true"
  if strContains ep0 "://" then
    match parsed with
    | some u =>
      { endPoint := u.hostname
        port := some (match u.port with
          | some p => p
          | none => if u.protocol = "https:" then 443 else 80)
        useSSL := u.protocol == "https:" }
    | none => { endPoint := ep0, port := port0, useSSL := ssl0 }
  else if port0 == some 443 then
    { endPoint := ep0, port := port0, useSSL := true }
  else
    { endPoint := ep0, port := port0, useSSL := ssl0 }

/-- JS template-literal rendering of the resolved port number (`NaN` prints
as `"NaN"`). -/
def portString : Option Nat → String
  | some n => Nat.repr n
  | none => "NaN"

/-- `` `${protocol}://${endPoint}:${port}/${bucketName}/${filename}` `` — the
direct (non-expiring) object URL built for a public bucket. -/
def directUrl (useSSL : Bool) (endPoint : String) (port : Option Nat)
    (bucket filename : String) : String :=
  (if useSSL then "https" else "http") ++ "://" ++ endPoint ++ ":" ++
    portString port ++ "/" ++ bucket ++ "/" ++ filename

/-- One statement of a parsed bucket policy document; `principalAWS = none`
covers a missing `Principal` or a missing `Principal.AWS`. -/
structure PolicyStmt where
  effect : String
  principalAWS : Option (List String)
deriving DecidableEq

/-- A parsed bucket policy document: its optional `Statement` array. -/
structure PolicyDoc where
  statements : Option (List PolicyStmt)
deriving DecidableEq

/-- `policyObj.Statement?.some(stmt => stmt.Effect === 'Allow' &&
stmt.Principal?.AWS?.includes('*'))` — the public-bucket test. -/
def isPublicPolicy (p : PolicyDoc) : Bool :=
  match p.statements with
  | none => false
  | some l => l.any (fun s =>
      s.effect == "Allow" &&
        (match s.principalAWS with
          | none => false
          | some aws => aws.contains "*"))

/-- The URL issued after an upload: either a direct object URL or a
presigned URL carrying the expiry (in seconds) that was requested from the
provider. -/
inductive IssuedUrl where
  | direct (u : String)
  | presigned (u : String) (expirySeconds : Nat)
deriving DecidableEq

/-- The plain string the route stores in `url`. -/
def IssuedUrl.urlString : IssuedUrl → String
  | .direct u => u
  | .presigned u _ => u

/-- URL issuance of `uploadToMinIOStorage` (approve route, lines 195–217).
`policyRead` is the oracle outcome of `getBucketPolicy` followed by
`JSON.parse` (`Except.error` when either throws); `presignedR` is the
oracle outcome of `presignedGetObject`.  The whole block sits in one
`try`/`catch` whose handler builds the direct URL, so a failure anywhere in
it — the policy read, the parse, or the presigned call — falls back to the
direct public URL. -/
def generateUrl (policyRead : Except Unit PolicyDoc)
    (presignedR : Except Unit String) (useSSL : Bool) (endPoint : String)
    (port : Option Nat) (bucket filename : String) : IssuedUrl :=
  match policyRead with
  | .error _ => .direct (directUrl useSSL endPoint port bucket filename)
  | .ok p =>
    if isPublicPolicy p then
      .direct (directUrl useSSL endPoint port bucket filename)
    else
      match presignedR with
      | .ok u => .presigned u (7 * 24 * 60 * 60)
      | .error _ => .direct (directUrl useSSL endPoint port bucket filename)

instance {ε α : Type} [DecidableEq ε] [DecidableEq α] :
    DecidableEq (Except ε α) := fun x y =>
  match x, y with
  | .ok a, .ok b =>
    if h : a = b then .isTrue (by rw [h]) else .isFalse (by simp [h])
  | .error a, .error b =>
    if h : a = b then .isTrue (by rw [h]) else .isFalse (by simp [h])
  | .ok _, .error _ => .isFalse (by simp)
  | .error _, .ok _ => .isFalse (by simp)

/-- Oracle outcomes of the MinIO client calls made by one upload attempt.
`Except.error` models the call throwing (the message is the thrown
`error.message`). -/
structure MinioWorld where
  parsedEndpoint : Option ParsedUrl
  bucketExistsR : Except String Bool
  makeBucketR : Except String Unit
  setPolicyR : Except String Unit
  putObjectR : Except String Unit
  policyReadR : Except Unit PolicyDoc
  presignedR : Except Unit String
deriving DecidableEq

/-- Return shape of `uploadToMinIOStorage`.  `url` keeps the issued URL's
structure (direct vs. presigned); the source stores only its string. -/
structure MinioResult where
  success : Bool
  url : Option IssuedUrl
  error : Option String
deriving DecidableEq

/-- `{ success: false, error: error.message || 'Failed to upload to MinIO' }` -/
def minioFailure (msg : String) : MinioResult :=
  { success := false, url := none
    error := some (if msg = "" then "Failed to upload to MinIO" else msg) }

/-- `uploadToMinIOStorage(audioBase64, title, jobId)` of the approve route
(lines 109–230): credential check, storage-target resolution, bucket
check-then-create, best-effort public policy set (its failure is swallowed),
object upload, then URL issuance.  All provider calls are oracle values in
`w`; any throw among the non-swallowed ones reaches the outer `catch` and
becomes a failure result. -/
def uploadToMinIOStorage (env : Env) (w : MinioWorld)
    (title jobId : String) : MinioResult :=
  if isFalsyEnv env.minioAccessKey || isFalsyEnv env.minioSecretKey then
    { success := false, url := none
      error := some ("MinIO not configured. Set MINIO_ACCESS_KEY and " ++
        "MINIO_SECRET_KEY environment variables.") }
  else
    let tgt := resolveTarget env.minioEndpoint env.minioPort env.minioUseSSL
      w.parsedEndpoint
    let bucket := envOr env.minioBucket "podcast"
    match w.bucketExistsR with
    | .error e => minioFailure e
    | .ok haveBucket =>
      match (if haveBucket then Except.ok () else w.makeBucketR) with
      | .error e => minioFailure e
      | .ok _ =>
        let filename := minioFilename title jobId
        match w.putObjectR with
        | .error e => minioFailure e
        | .ok _ =>
          { success := true
            url := some (generateUrl w.policyReadR w.presignedR tgt.useSSL
              tgt.endPoint tgt.port bucket filename)
            error := none }

/-- One conversation turn: `{ speaker, text }`. -/
structure Turn where
  speaker : String
  text : String
deriving DecidableEq

/-- One synthesis input: `{ text, voiceId }`. -/
structure DialogueInput where
  text : String
  voiceId : String
deriving DecidableEq

/-- `conversation.map(item => ({ text: item.text, voiceId: item.speaker ===
'Speaker1' ? voice1Id : voice2Id }))` — the synthesis-request construction
of the approve route (lines 42–45). -/
def dialogueInputsOf (conversation : List Turn)
    (voice1Id voice2Id : String) : List DialogueInput :=
  conversation.map (fun item =>
    { text := item.text
      voiceId := if item.speaker = "Speaker1" then voice1Id else voice2Id })

/-- `audioBase64.includes(',') ? audioBase64.split(',')[1] : audioBase64` —
the payload between the first and second comma when a comma is present. -/
def base64Payload (audioBase64 : String) : String :=
  if strContains audioBase64 "," then
    match audioBase64.data.dropWhile (fun c => c ≠ ',') with
    | _ :: rest => ⟨rest.takeWhile (fun c => c ≠ ',')⟩
    | [] => ""
  else audioBase64

/-- Request body of the approve route.  `jobId = ""` models an absent or
empty (falsy) job id, `voice1 = ""` / `voice2 = ""` an absent voice field
(the `||` defaults fire on both); `conversation = none` models an absent or
non-array field. -/
structure ApproveRequest where
  jobId : String
  conversation : Option (List Turn)
  title : Option String
  voice1 : String
  voice2 : String
  uploadToMinIO : Bool
deriving DecidableEq

/-- Success body of the approve route. -/
structure ApproveOk where
  jobId : String
  downloadUrl : String
  minioUrl : Option String
  filename : String
  message : String
deriving DecidableEq

/-- Response of the approve route: a JSON error with its HTTP status, or
the HTTP‑200 `success: true` body. -/
inductive ApproveResult where
  | err (status : Nat) (msg : String)
  | ok (r : ApproveOk)
deriving DecidableEq

/-- Side effects the approve handler performed: whether
`uploadToMinIOStorage` was invoked, and the local artifact write
(filename and the base64 payload that was decoded into it). -/
structure ApproveTrace where
  minioAttempted : Bool
  localWritten : Option (String × String)
deriving DecidableEq

/-- `POST /api/webhook/approve` (lines 19–106).  `dialogueR` is the oracle
outcome of `createDialogue` (`Except.error` = `result.ok` false, carrying
`result.error`; `Except.ok` carries `audioBase64`); `minioStep` is the
outcome of the awaited `uploadToMinIOStorage` call (`Except.error` models a
throw, swallowed by the inner `catch`).  Returns the response together with
the effect trace. -/
def approvePOST (env : Env) (req : ApproveRequest)
    (dialogueR : Except String String)
    (minioStep : Except String MinioResult) :
    ApproveResult × ApproveTrace :=
  match req.conversation with
  | none => (.err 400 "Valid conversation is required", ⟨false, none⟩)
  | some conv =>
    if conv.isEmpty then
      (.err 400 "Valid conversation is required", ⟨false, none⟩)
    else if req.jobId = "" then
      (.err 400 "Job ID is required", ⟨false, none⟩)
    else
      let voice1Id := if req.voice1 = "" then "FF7KdobWPaiR0vkcALHF"
        else req.voice1
      let voice2Id := if req.voice2 = "" then "BpjGufoPiobT79j2vtj4"
        else req.voice2
      let _inputs := dialogueInputsOf conv voice1Id voice2Id
      match dialogueR with
      | .error e => (.err 500 e, ⟨false, none⟩)
      | .ok audioBase64 =>
        let localTitle := envOr req.title "podcast"
        let filename := minioFilename localTitle req.jobId
        let written := some (filename, base64Payload audioBase64)
        if req.uploadToMinIO then
          let minioUrl : Option String :=
            match minioStep with
            | .error _ => none
            | .ok mres =>
              if mres.success then mres.url.map IssuedUrl.urlString else none
          let downloadUrl :=
            match minioUrl with
            | some u => if u = "" then localDownloadUrl env req.jobId else u
            | none => localDownloadUrl env req.jobId
          (.ok { jobId := req.jobId, downloadUrl := downloadUrl
                 minioUrl := minioUrl, filename := filename
                 message := "Audio generated successfully" },
           ⟨true, written⟩)
        else
          (.ok { jobId := req.jobId
                 downloadUrl := localDownloadUrl env req.jobId
                 minioUrl := none, filename := filename
                 message := "Audio generated successfully" },
           ⟨false, written⟩)

/-- The eleven supported language codes (process and transcript routes). -/
def validLanguages : List String :=
  ["en", "pl", "es", "fr", "de", "it", "pt", "ru", "ja", "ko", "zh"]

/-- Language resolution of the process route (lines 20 and 30–31): the
destructuring default `'en'` for an absent field, then
`validLanguages.includes(language) ? language : 'en'`. -/
def resolveLanguage (language : Option String) : String :=
  let lang := language.getD "en"
  if validLanguages.contains lang then lang else "en"

/-- A partial turn as emitted inside a stream chunk: either field may be
missing. -/
structure PartialTurn where
  speaker : Option String
  text : Option String
deriving DecidableEq

/-- The stream-collection loop of the process route (lines 97–105): each
chunk whose `conversation` is an array replaces the collected value by that
array with missing fields defaulted to `""`. -/
def collectConversation
    (chunks : List (Option (List PartialTurn))) : List Turn :=
  chunks.foldl (fun acc c =>
    match c with
    | none => acc
    | some conv => conv.map (fun it =>
        { speaker := envOr it.speaker "", text := envOr it.text "" })) []

/-- Request body of the process route (fields the handler reads). -/
structure ProcessRequest where
  jobId : String
  transcript : String
  title : Option String
  language : Option String
deriving DecidableEq

/-- Success body of the process route. -/
structure ProcessOk where
  jobId : String
  conversation : List Turn
  title : String
  language : String
  approvalUrl : String
  message : String
deriving DecidableEq

/-- Response of the process route. -/
inductive ProcessResult where
  | err (status : Nat) (msg : String)
  | ok (r : ProcessOk)
deriving DecidableEq

/-- `POST /api/webhook/process` (lines 18–126).  `gen` is the oracle
outcome of the provider call: `Except.error` models a throw anywhere in the
generation (caught at line 119), `Except.ok` carries the stream chunks. -/
def processPOST (env : Env) (req : ProcessRequest)
    (gen : Except Unit (List (Option (List PartialTurn)))) : ProcessResult :=
  if req.transcript = "" || req.jobId = "" then
    .err 400 "Transcript and jobId are required"
  else
    let selectedLanguage := resolveLanguage req.language
    if isFalsyEnv env.openRouterKey && isFalsyEnv env.openaiKey then
      .err 500 "Either OPENROUTER_API_KEY or OPENAI_API_KEY must be configured"
    else
      match gen with
      | .error _ => .err 500 "Failed to process transcript"
      | .ok chunks =>
        .ok { jobId := req.jobId
              conversation := collectConversation chunks
              title := envOr req.title "Untitled Podcast"
              language := selectedLanguage
              approvalUrl := envOr env.appUrl "http://localhost:3000" ++
                "/api/webhook/approve"
              message := "Conversation generated. Please review and approve." }

/-- `` `job_${Date.now()}_${Math.random().toString(36).substring(7)}` `` —
`now` is the oracle value of `Date.now()` (printed in decimal by the
template literal) and `rand` the oracle suffix produced by the random
base-36 expansion. -/
def mintJobId (now : Nat) (rand : String) : String :=
  "job_" ++ Nat.repr now ++ "_" ++ rand

/-- Request body of the transcript (receive) route.  Metadata is modelled
as a JSON object of string fields. -/
structure ReceiveRequest where
  transcript : String
  title : Option String
  language : Option String
  metadata : Option (List (String × String))
deriving DecidableEq

/-- The `nextStep.body` the receive route echoes forward. -/
structure NextStepBody where
  jobId : String
  transcript : String
  title : String
  language : String
  metadata : List (String × String)
deriving DecidableEq

/-- The `nextStep` instructions of the receive route. -/
structure NextStep where
  url : String
  method : String
  body : NextStepBody
deriving DecidableEq

/-- Success body of the receive route. -/
structure ReceiveOk where
  jobId : String
  message : String
  language : String
  nextStep : NextStep
deriving DecidableEq

/-- Response of the receive route. -/
inductive ReceiveResult where
  | err (status : Nat) (msg : String)
  | ok (r : ReceiveOk)
deriving DecidableEq

/-- `POST /api/webhook/transcript` (lines 4–51): validate the transcript,
resolve the language (`language && validLanguages.includes(language) ?
language : 'en'`), mint the job id, and echo the payload wrapped in
next-step instructions.  No generation call is made: the response is a pure
function of the request, the environment and the two id oracles. -/
def receivePOST (env : Env) (req : ReceiveRequest) (now : Nat)
    (rand : String) : ReceiveResult :=
  if req.transcript = "" then .err 400 "Transcript is required"
  else
    let selectedLanguage :=
      match req.language with
      | none => "en"
      | some l => if l ≠ "" && validLanguages.contains l then l else "en"
    let jobId := mintJobId now rand
    .ok { jobId := jobId
          message := "Transcript received successfully"
          language := selectedLanguage
          nextStep :=
            { url := envOr env.appUrl "http://localhost:3000" ++
                "/api/webhook/process"
              method := "POST"
              body := { jobId := jobId
                        transcript := req.transcript
                        title := envOr req.title "Untitled Podcast"
                        language := selectedLanguage
                        metadata := req.metadata.getD [] } } }

/-- `file.includes(jobId) && file.endsWith('.mp3')` — the match predicate
of the download route. -/
def mp3Match (jobId name : String) : Bool :=
  strContains name jobId && endsWithStr name ".mp3"

/-- Response of the download route: a JSON error with its status, or the
file bytes with the headers the route sets. -/
inductive DownloadResult where
  | err (status : Nat) (msg : String)
  | file (bytes : List Nat) (contentType : String) (contentLength : Nat)
      (attachmentName : String)
deriving DecidableEq

/-- `GET /api/webhook/download/[jobId]` (process route file, lines
135–181): scan the archive directory listing (`dir` pairs each filename
with its byte content, in listing order), serve the first name that
contains the job id and ends with `.mp3`, or 404. -/
def downloadGET (dir : List (String × List Nat)) (jobId : String) :
    DownloadResult :=
  if jobId = "" then .err 400 "Job ID is required"
  else
    match dir.find? (fun f => mp3Match jobId f.1) with
    | none => .err 404 "File not found for this job ID"
    | some f => .file f.2 "audio/mpeg" f.2.length f.1

/-- The base-36 fragment after the second `_` and the digit block: checker
for the `job_<digits>_<alnum>` shape over the character list. -/
def jobIdPatternL : List Char → Bool
  | a :: b :: c :: d :: rest =>
    (a == 'j') && (b == 'o') && (c == 'b') && (d == '_') &&
      (match rest.takeWhile isDigitChar, rest.dropWhile isDigitChar with
        | _ :: _, e :: f :: suf =>
          (e == '_') && (f :: suf).all isBase36Char
        | _, _ => false)
  | _ => false

/-- `job_<digits>_<alnum>`: the literal `job_`, a non-empty run of decimal
digits, an underscore, then a non-empty run of base-36 characters. -/
def jobIdPattern (s : String) : Bool :=
  jobIdPatternL s.data

section Lemmas

/-- Every character the sanitizer emits is alphanumeric or underscore. -/
theorem isSlugChar_sanitizeChar (c : Char) :
    isSlugChar (sanitizeChar c) = true := by
  unfold sanitizeChar isSlugChar
  split
  · rename_i h
    simp only [Bool.or_eq_true] at h ⊢
    tauto
  · decide

/-- The per-character sanitizer is idempotent. -/
theorem sanitizeChar_sanitizeChar (c : Char) :
    sanitizeChar (sanitizeChar c) = sanitizeChar c := by
  by_cases h : (('a' ≤ c && c ≤ 'z') || ('A' ≤ c && c ≤ 'Z') ||
      ('0' ≤ c && c ≤ '9')) = true
  · simp [sanitizeChar, h]
  · simp only [Bool.not_eq_true] at h
    simp [sanitizeChar, h]

/-- A string always `includes` its own trailing segment. -/
theorem strContains_append (a b : String) :
    strContains (a ++ b) b = true := by
  unfold strContains
  rw [List.any_eq_true]
  refine ⟨a.data.length, ?_, ?_⟩
  · rw [List.mem_range, String.data_append, List.length_append]
    omega
  · rw [String.data_append, List.drop_left, List.take_length]
    exact beq_self_eq_true b.data

/-- `takeWhile` passes over a prefix every element of which satisfies the
predicate. -/
theorem takeWhile_append_all {α} (p : α → Bool) :
    ∀ l r : List α, l.all p = true →
      (l ++ r).takeWhile p = l ++ r.takeWhile p := by
  intro l r h
  induction l with
  | nil => simp
  | cons a t ih =>
    simp only [List.all_cons, Bool.and_eq_true] at h
    simp [List.takeWhile_cons, h.1, ih h.2]

/-- `dropWhile` drops a prefix every element of which satisfies the
predicate. -/
theorem dropWhile_append_all {α} (p : α → Bool) :
    ∀ l r : List α, l.all p = true →
      (l ++ r).dropWhile p = r.dropWhile p := by
  intro l r h
  induction l with
  | nil => simp
  | cons a t ih =>
    simp only [List.all_cons, Bool.and_eq_true] at h
    simp [List.dropWhile_cons, h.1, ih h.2]

/-- `find?` returns the head of the first matching cell of a listing split
into a non-matching prefix, a matching cell, and a remainder. -/
theorem find?_first_match {α} (p : α → Bool) :
    ∀ (pre : List α) (x : α) (rest : List α),
      (∀ y ∈ pre, p y = false) → p x = true →
      (pre ++ x :: rest).find? p = some x := by
  intro pre x rest hpre hx
  induction pre with
  | nil => simp [List.find?_cons, hx]
  | cons a t ih =>
    have ha : p a = false := hpre a (by simp)
    simp only [List.cons_append, List.find?_cons, ha]
    exact ih (fun y hy => hpre y (by simp [hy]))

/-- Digit characters produced by `Nat.digitChar` below the base. -/
theorem isDigitChar_digitChar : ∀ m, m < 10 →
    isDigitChar (Nat.digitChar m) = true := by decide

/-- `Nat.toDigitsCore` at base 10 only prepends decimal digit characters. -/
theorem toDigitsCore_all_digits :
    ∀ (fuel n : Nat) (ds : List Char), ds.all isDigitChar = true →
      (Nat.toDigitsCore 10 fuel n ds).all isDigitChar = true := by
  intro fuel
  induction fuel with
  | zero => intro n ds h; simpa [Nat.toDigitsCore] using h
  | succ fuel ih =>
    intro n ds h
    rw [Nat.toDigitsCore]
    have hd : isDigitChar (Nat.digitChar (n % 10)) = true :=
      isDigitChar_digitChar _ (Nat.mod_lt _ (by decide))
    split
    · simp [List.all_cons, hd, h]
    · exact ih _ _ (by simp [List.all_cons, hd, h])

/-- `Nat.toDigitsCore` never erases an already non-empty accumulator. -/
theorem toDigitsCore_ne_nil_of_acc :
    ∀ (fuel n : Nat) (ds : List Char), ds ≠ [] →
      Nat.toDigitsCore 10 fuel n ds ≠ [] := by
  intro fuel
  induction fuel with
  | zero => intro n ds h; simpa [Nat.toDigitsCore] using h
  | succ fuel ih =>
    intro n ds h
    rw [Nat.toDigitsCore]
    split
    · simp
    · exact ih _ _ (by simp)

/-- The decimal digit list of a natural number is non-empty. -/
theorem toDigits_ne_nil (n : Nat) : Nat.toDigits 10 n ≠ [] := by
  rw [Nat.toDigits, Nat.toDigitsCore]
  split
  · simp
  · exact toDigitsCore_ne_nil_of_acc _ _ _ (by simp)

/-- Every character of the decimal digit list is a digit character. -/
theorem toDigits_all_digits (n : Nat) :
    (Nat.toDigits 10 n).all isDigitChar = true :=
  toDigitsCore_all_digits _ _ _ rfl

/-- The characters of `Nat.repr` are its decimal digit list. -/
theorem repr_data (n : Nat) : (Nat.repr n).data = Nat.toDigits 10 n := rfl

end Lemmas

/-- C5: the title sanitization used for the artifact filename is total and
idempotent: for every title the slug has only alphanumeric/underscore
characters, its length is at most 50, sanitizing a second time is the
identity, and the filename is the slug followed verbatim by
`"_" ++ jobId ++ ".mp3"`. -/
theorem sanitizeTitle_total_idempotent (t jobId : String) :
    (sanitizeTitle t).data.all isSlugChar = true ∧
    (sanitizeTitle t).length ≤ 50 ∧
    sanitizeTitle (sanitizeTitle t) = sanitizeTitle t ∧
    minioFilename t jobId = sanitizeTitle t ++ "_" ++ jobId ++ ".mp3" := by
  refine ⟨?_, ?_, ?_, rfl⟩
  · rw [List.all_eq_true]
    intro c hc
    have hc2 : c ∈ t.data.map sanitizeChar := List.take_subset _ _ hc
    rcases List.mem_map.mp hc2 with ⟨a, _, rfl⟩
    exact isSlugChar_sanitizeChar a
  · show ((t.data.map sanitizeChar).take 50).length ≤ 50
    exact List.length_take_le _ _
  · show String.mk ((((t.data.map sanitizeChar).take 50).map
      sanitizeChar).take 50) = String.mk ((t.data.map sanitizeChar).take 50)
    congr 1
    rw [List.map_take, List.map_map]
    have h : List.map (sanitizeChar ∘ sanitizeChar) t.data =
        List.map sanitizeChar t.data :=
      List.map_congr_left (fun a _ => sanitizeChar_sanitizeChar a)
    rw [h, List.take_take]
    norm_num

/-- C9: the synthesis-request construction of the approve stage emits one
`(text, voiceId)` pair per conversation turn, in order; a turn whose
speaker tag is exactly `"Speaker1"` gets the first voice and every other
tag — `"Speaker2"` or malformed — gets the second; the mapping is total,
so no speaker-tag validation error can arise. -/
theorem dialogueInputsOf_spec (conv : List Turn) (v1 v2 : String) :
    (dialogueInputsOf conv v1 v2).length = conv.length ∧
    (∀ i (h1 : i < conv.length)
        (h2 : i < (dialogueInputsOf conv v1 v2).length),
      (dialogueInputsOf conv v1 v2).get ⟨i, h2⟩ =
        { text := (conv.get ⟨i, h1⟩).text
          voiceId := if (conv.get ⟨i, h1⟩).speaker = "Speaker1"
            then v1 else v2 }) ∧
    (∀ i (h1 : i < conv.length)
        (h2 : i < (dialogueInputsOf conv v1 v2).length),
      (conv.get ⟨i, h1⟩).speaker ≠ "Speaker1" →
        ((dialogueInputsOf conv v1 v2).get ⟨i, h2⟩).voiceId = v2) := by
  refine ⟨List.length_map _ _, ?_, ?_⟩
  · intro i h1 h2
    simp [dialogueInputsOf, List.get_eq_getElem, List.getElem_map]
  · intro i h1 h2 hs
    simp only [List.get_eq_getElem] at hs
    simp [dialogueInputsOf, List.get_eq_getElem, List.getElem_map, hs]

/-- Witness for C9 at a concrete two-turn conversation with a malformed
second speaker tag. -/
theorem dialogueInputsOf_spec_witness :
    (dialogueInputsOf [⟨"Speaker1", "hi"⟩, ⟨"SpeakerX", "yo"⟩]
      "v1" "v2").get ⟨1, by decide⟩ = ⟨"yo", "v2"⟩ := by
  have h := (dialogueInputsOf_spec [⟨"Speaker1", "hi"⟩, ⟨"SpeakerX", "yo"⟩]
    "v1" "v2").2.1 1 (by decide) (by decide)
  rw [h]
  decide

/-- C7: the download stage scans the archive listing in order and serves
the bytes of the first filename that contains the job id and ends with
`.mp3`, with content type `audio/mpeg` and content length the byte count;
with no match anywhere it answers 404 `File not found for this job ID`. -/
theorem downloadGET_spec (dir pre rest : List (String × List Nat))
    (name : String) (bytes : List Nat) (jobId : String)
    (hj : jobId ≠ "") :
    ((∀ p ∈ dir, mp3Match jobId p.1 = false) →
      downloadGET dir jobId = .err 404 "File not found for this job ID") ∧
    (dir = pre ++ (name, bytes) :: rest →
      (∀ p ∈ pre, mp3Match jobId p.1 = false) →
      mp3Match jobId name = true →
      downloadGET dir jobId =
        .file bytes "audio/mpeg" bytes.length name) := by
  constructor
  · intro hnone
    have hfind : dir.find? (fun f => mp3Match jobId f.1) = none := by
      rw [List.find?_eq_none]
      intro x hx
      simp [hnone x hx]
    simp [downloadGET, hj, hfind]
  · intro hdir hpre hmatch
    have hfind : dir.find? (fun f => mp3Match jobId f.1) =
        some (name, bytes) := by
      rw [hdir]
      exact find?_first_match _ pre (name, bytes) rest
        (fun y hy => hpre y hy) hmatch
    simp [downloadGET, hj, hfind]

/-- Witness for C7: a two-file archive in which the second file matches,
and an archive with no match. -/
theorem downloadGET_spec_witness :
    downloadGET [("other.mp3", [0]), ("t_j1.mp3", [7, 8])] "j1" =
      .file [7, 8] "audio/mpeg" 2 "t_j1.mp3" ∧
    downloadGET [("other.mp3", [0])] "j1" =
      .err 404 "File not found for this job ID" := by
  constructor
  · exact (downloadGET_spec [("other.mp3", [0]), ("t_j1.mp3", [7, 8])]
      [("other.mp3", [0])] [] "t_j1.mp3" [7, 8] "j1" (by decide)).2
      rfl (by decide) (by decide)
  · exact (downloadGET_spec [("other.mp3", [0])] [] [] "" [] "j1"
      (by decide)).1 (by decide)

/-- C6: on a valid `process` call the resolved language is the supplied tag
exactly when the tag is one of the eleven enumerated codes, and the fixed
default `"en"` when the tag is absent or unrecognized; the resolved
language is the `language` field of the success response. -/
theorem processPOST_language_spec (env : Env) (req : ProcessRequest)
    (chunks : List (Option (List PartialTurn)))
    (ht : req.transcript ≠ "") (hj : req.jobId ≠ "")
    (hk : (isFalsyEnv env.openRouterKey && isFalsyEnv env.openaiKey)
      = false) :
    ∃ r, processPOST env req (.ok chunks) = .ok r ∧
      r.language = resolveLanguage req.language ∧
      (∀ l, req.language = some l → validLanguages.contains l = true →
        r.language = l) ∧
      (∀ l, req.language = some l → validLanguages.contains l = false →
        r.language = "en") ∧
      (req.language = none → r.language = "en") := by
  refine ⟨{ jobId := req.jobId
            conversation := collectConversation chunks
            title := envOr req.title "Untitled Podcast"
            language := resolveLanguage req.language
            approvalUrl := envOr env.appUrl "http://localhost:3000" ++
              "/api/webhook/approve"
            message := "Conversation generated. Please review and approve." },
    ?_, rfl, ?_, ?_, ?_⟩
  · simp [processPOST, ht, hj, hk]
  · intro l hl hmem
    have hmem2 : l ∈ validLanguages := by simpa using hmem
    simp [resolveLanguage, hl, hmem2]
  · intro l hl hmem
    have hmem2 : l ∉ validLanguages := by simpa using hmem
    simp [resolveLanguage, hl, hmem2]
  · intro hl
    simp [resolveLanguage, hl, validLanguages]

/-- Witness for C6 at an unrecognized tag `"xx"`: the response carries the
default language `"en"`. -/
theorem processPOST_language_spec_witness :
    ∃ r, processPOST
        { appUrl := none, openRouterKey := some "K", openaiKey := none
          minioAccessKey := none, minioSecretKey := none
          minioEndpoint := none, minioPort := none, minioUseSSL := none
          minioBucket := none }
        { jobId := "job_1_a", transcript := "T", title := none
          language := some "xx" } (.ok []) = .ok r ∧
      r.language = resolveLanguage (some "xx") ∧
      (∀ l, (some "xx" : Option String) = some l →
        validLanguages.contains l = true → r.language = l) ∧
      (∀ l, (some "xx" : Option String) = some l →
        validLanguages.contains l = false → r.language = "en") ∧
      ((some "xx" : Option String) = none → r.language = "en") :=
  processPOST_language_spec _ _ [] (by decide) (by decide) (by decide)

/-- C4: storage-target resolution.  When the configured endpoint contains a
scheme and parses, hostname, port and TLS come from the parsed URL — TLS
true exactly for the `https:` scheme, an absent URL port defaulting to 443
for https and 80 otherwise — and the discrete port/TLS environment values
are immaterial.  Without a scheme the discrete fields are used, with TLS
forced on when the resolved port equals 443. -/
theorem resolveTarget_spec (endpointEnv portEnv sslEnv
      portEnv2 sslEnv2 : Option String) (u : ParsedUrl)
    (parsed : Option ParsedUrl) :
    (strContains (envOr endpointEnv "minio2-api.aihub.ovh") "://" = true →
      (resolveTarget endpointEnv portEnv sslEnv (some u)).endPoint =
        u.hostname ∧
      ((resolveTarget endpointEnv portEnv sslEnv (some u)).useSSL = true ↔
        u.protocol = "https:") ∧
      (∀ pn, u.port = some pn →
        (resolveTarget endpointEnv portEnv sslEnv (some u)).port =
          some pn) ∧
      (u.port = none →
        (resolveTarget endpointEnv portEnv sslEnv (some u)).port =
          some (if u.protocol = "https:" then 443 else 80)) ∧
      resolveTarget endpointEnv portEnv sslEnv (some u) =
        resolveTarget endpointEnv portEnv2 sslEnv2 (some u)) ∧
    (strContains (envOr endpointEnv "minio2-api.aihub.ovh") "://" = false →
      resolveTarget endpointEnv portEnv sslEnv parsed =
        { endPoint := envOr endpointEnv "minio2-api.aihub.ovh"
          port := parseIntJS (envOr portEnv "443")
          useSSL := (sslEnv == some "true") ||
            (parseIntJS (envOr portEnv "443") == some 443) }) := by
  constructor
  · intro hscheme
    refine ⟨?_, ?_, ?_, ?_, ?_⟩
    · simp [resolveTarget, hscheme]
    · simp [resolveTarget, hscheme]
    · intro pn hpn; simp [resolveTarget, hscheme, hpn]
    · intro hpn; simp [resolveTarget, hscheme, hpn]
    · simp [resolveTarget, hscheme]
  · intro hscheme
    by_cases h443 : (parseIntJS (envOr portEnv "443") == some 443) = true
    · simp [resolveTarget, hscheme, h443]
    · simp only [Bool.not_eq_true] at h443
      simp [resolveTarget, hscheme, h443]

/-- Witness for C4: the spec's concrete endpoint `"https://host:9443"`
(whose WHATWG parse has protocol `https:`, hostname `host`, port 9443)
overrides a discrete port 80 / TLS-off environment, and a discrete
endpoint with port 443 forces TLS on. -/
theorem resolveTarget_spec_witness :
    resolveTarget (some "https://host:9443") (some "80") (some "false")
        (some ⟨"https:", "host", some 9443⟩) =
      ⟨"host", some 9443, true⟩ ∧
    resolveTarget (some "plainhost") (some "443") (some "false") none =
      ⟨"plainhost", some 443, true⟩ := by
  constructor
  · have h := ((resolveTarget_spec (some "https://host:9443") (some "80")
      (some "false") (some "80") (some "false")
      ⟨"https:", "host", some 9443⟩ none).1 (by decide)).2.2.1
      9443 rfl
    have h2 := ((resolveTarget_spec (some "https://host:9443") (some "80")
      (some "false") (some "80") (some "false")
      ⟨"https:", "host", some 9443⟩ none).1 (by decide)).1
    have h3 := ((resolveTarget_spec (some "https://host:9443") (some "80")
      (some "false") (some "80") (some "false")
      ⟨"https:", "host", some 9443⟩ none).1 (by decide)).2.1.mpr rfl
    cases he : resolveTarget (some "https://host:9443") (some "80")
      (some "false") (some ⟨"https:", "host", some 9443⟩) with
    | mk e p s =>
      rw [he] at h h2 h3
      simp_all
  · have h := (resolveTarget_spec (some "plainhost") (some "443")
      (some "false") (some "443") (some "false")
      ⟨"https:", "host", some 9443⟩ none).2 (by decide)
    rw [h]
    decide

/-- C1 counterexample: a full upload in which the bucket-policy read throws
(`policyReadR = .error ()`), with a presigned URL available from the
provider.  The claim requires a time-limited signed URL in this case; the
code instead assumes the bucket is public and issues the direct
non-expiring URL (`catch` branch of the URL block, approve route lines
213–217). -/
theorem uploadToMinIO_policy_read_failure_counterexample :
    uploadToMinIOStorage
      { appUrl := none, openRouterKey := none, openaiKey := none
        minioAccessKey := some "AK", minioSecretKey := some "SK"
        minioEndpoint := some "host", minioPort := some "9443"
        minioUseSSL := some "true", minioBucket := none }
      { parsedEndpoint := none, bucketExistsR := .ok true
        makeBucketR := .ok (), setPolicyR := .ok ()
        putObjectR := .ok (), policyReadR := .error ()
        presignedR := .ok "SIGNED" }
      "My Title" "job1" =
    { success := true
      url := some (.direct "https://host:9443/podcast/My_Title_job1.mp3")
      error := none } := by decide

/-- C1 amended: after a stored upload the issued URL is determined by
re-reading the bucket policy — a policy marking the bucket public yields
the direct URL `protocol://endpoint:port/bucket/filename`; a private
bucket yields a presigned URL requested with an expiry of exactly 604800
seconds; but if the policy read (or the presigned-URL call) fails, the
store assumes the bucket is public and returns the direct URL, not a
signed one. -/
theorem uploadToMinIO_url_issuance (env : Env) (w : MinioWorld)
    (title jobId : String) (b : Bool)
    (hak : isFalsyEnv env.minioAccessKey = false)
    (hsk : isFalsyEnv env.minioSecretKey = false)
    (hbe : w.bucketExistsR = .ok b)
    (hmk : b = false → w.makeBucketR = .ok ())
    (hput : w.putObjectR = .ok ()) :
    uploadToMinIOStorage env w title jobId =
      { success := true
        url := some (generateUrl w.policyReadR w.presignedR
          (resolveTarget env.minioEndpoint env.minioPort env.minioUseSSL
            w.parsedEndpoint).useSSL
          (resolveTarget env.minioEndpoint env.minioPort env.minioUseSSL
            w.parsedEndpoint).endPoint
          (resolveTarget env.minioEndpoint env.minioPort env.minioUseSSL
            w.parsedEndpoint).port
          (envOr env.minioBucket "podcast") (minioFilename title jobId))
        error := none } ∧
    (∀ ssl ep port bucket filename,
      (∀ p, w.policyReadR = .ok p → isPublicPolicy p = true →
        generateUrl w.policyReadR w.presignedR ssl ep port bucket filename =
          .direct (directUrl ssl ep port bucket filename)) ∧
      (∀ p u, w.policyReadR = .ok p → isPublicPolicy p = false →
        w.presignedR = .ok u →
        generateUrl w.policyReadR w.presignedR ssl ep port bucket filename =
          .presigned u 604800) ∧
      (w.policyReadR = .error () →
        generateUrl w.policyReadR w.presignedR ssl ep port bucket filename =
          .direct (directUrl ssl ep port bucket filename))) := by
  constructor
  · cases b with
    | true => simp [uploadToMinIOStorage, hak, hsk, hbe, hput]
    | false =>
      simp [uploadToMinIOStorage, hak, hsk, hbe, hmk rfl, hput]
  · intro ssl ep port bucket filename
    refine ⟨?_, ?_, ?_⟩
    · intro p hp hpub
      simp [generateUrl, hp, hpub]
    · intro p u hp hpub hpre
      simp [generateUrl, hp, hpub, hpre]
    · intro hp
      simp [generateUrl, hp]

/-- Witness for the amended C1: a private-bucket policy read yields the
presigned URL with the 604800-second expiry. -/
theorem uploadToMinIO_url_issuance_witness :
    uploadToMinIOStorage
      { appUrl := none, openRouterKey := none, openaiKey := none
        minioAccessKey := some "AK", minioSecretKey := some "SK"
        minioEndpoint := some "host", minioPort := some "9443"
        minioUseSSL := some "true", minioBucket := none }
      { parsedEndpoint := none, bucketExistsR := .ok false
        makeBucketR := .ok (), setPolicyR := .ok ()
        putObjectR := .ok ()
        policyReadR := .ok ⟨some [⟨"Deny", none⟩]⟩
        presignedR := .ok "SIGNED" }
      "My Title" "job1" =
      { success := true
        url := some (generateUrl (.ok ⟨some [⟨"Deny", none⟩]⟩)
          (.ok "SIGNED") true "host" (some 9443) "podcast"
          "My_Title_job1.mp3")
        error := none } ∧
    generateUrl (Except.ok (PolicyDoc.mk (some [⟨"Deny", none⟩])))
        (.ok "SIGNED") true "host" (some 9443) "podcast"
        "My_Title_job1.mp3" =
      .presigned "SIGNED" 604800 := by
  constructor
  · have h := (uploadToMinIO_url_issuance
      { appUrl := none, openRouterKey := none, openaiKey := none
        minioAccessKey := some "AK", minioSecretKey := some "SK"
        minioEndpoint := some "host", minioPort := some "9443"
        minioUseSSL := some "true", minioBucket := none }
      { parsedEndpoint := none, bucketExistsR := .ok false
        makeBucketR := .ok (), setPolicyR := .ok ()
        putObjectR := .ok ()
        policyReadR := .ok ⟨some [⟨"Deny", none⟩]⟩
        presignedR := .ok "SIGNED" }
      "My Title" "job1" false (by decide) (by decide) rfl
      (fun _ => rfl) rfl).1
    rw [h]
    decide
  · have h := ((uploadToMinIO_url_issuance
      { appUrl := none, openRouterKey := none, openaiKey := none
        minioAccessKey := some "AK", minioSecretKey := some "SK"
        minioEndpoint := some "host", minioPort := some "9443"
        minioUseSSL := some "true", minioBucket := none }
      { parsedEndpoint := none, bucketExistsR := .ok false
        makeBucketR := .ok (), setPolicyR := .ok ()
        putObjectR := .ok ()
        policyReadR := .ok ⟨some [⟨"Deny", none⟩]⟩
        presignedR := .ok "SIGNED" }
      "My Title" "job1" false (by decide) (by decide) rfl
      (fun _ => rfl) rfl).2 true "host" (some 9443) "podcast"
      "My_Title_job1.mp3").2.1 ⟨some [⟨"Deny", none⟩]⟩ "SIGNED"
      rfl (by decide) rfl
    exact h

/-- C2: an approve call whose `uploadToMinIO` is absent or false performs
no MinIO operation (the trace flag is false and the whole outcome is
independent of the remote-store oracle), answers with `minioUrl = null`,
and its `downloadUrl` is the local download endpoint, which contains the
supplied job id. -/
theorem approvePOST_no_upload (env : Env) (req : ApproveRequest)
    (audio : String) (m1 m2 : Except String MinioResult)
    (conv : List Turn) (hc : req.conversation = some conv)
    (hne : conv ≠ []) (hj : req.jobId ≠ "")
    (hup : req.uploadToMinIO = false) :
    (approvePOST env req (.ok audio) m1).2.minioAttempted = false ∧
    approvePOST env req (.ok audio) m1 =
      approvePOST env req (.ok audio) m2 ∧
    ∃ r, (approvePOST env req (.ok audio) m1).1 = .ok r ∧
      r.minioUrl = none ∧
      r.downloadUrl = localDownloadUrl env req.jobId ∧
      strContains r.downloadUrl req.jobId = true := by
  have hie : conv.isEmpty = false := by
    cases conv with
    | nil => exact absurd rfl hne
    | cons a t => rfl
  refine ⟨?_, ?_, ?_⟩
  · simp [approvePOST, hc, hie, hj, hup]
  · simp [approvePOST, hc, hie, hj, hup]
  · refine ⟨{ jobId := req.jobId
              downloadUrl := localDownloadUrl env req.jobId
              minioUrl := none
              filename := minioFilename (envOr req.title "podcast")
                req.jobId
              message := "Audio generated successfully" },
      by simp [approvePOST, hc, hie, hj, hup], rfl, rfl, ?_⟩
    show strContains ((envOr env.appUrl "http://localhost:3000" ++
      "/api/webhook/download/") ++ req.jobId) req.jobId = true
    exact strContains_append _ _

/-- Witness for C2 at the spec's concrete scenario: one-turn conversation,
`jobId = "job_1_a"`, `uploadToMinIO = false`. -/
theorem approvePOST_no_upload_witness :
    (approvePOST
      { appUrl := none, openRouterKey := none, openaiKey := none
        minioAccessKey := none, minioSecretKey := none
        minioEndpoint := none, minioPort := none, minioUseSSL := none
        minioBucket := none }
      { jobId := "job_1_a", conversation := some [⟨"Speaker1", "Hi"⟩]
        title := none, voice1 := "", voice2 := ""
        uploadToMinIO := false }
      (.ok "QUJD") (.error "boom")).2.minioAttempted = false ∧
    approvePOST
      { appUrl := none, openRouterKey := none, openaiKey := none
        minioAccessKey := none, minioSecretKey := none
        minioEndpoint := none, minioPort := none, minioUseSSL := none
        minioBucket := none }
      { jobId := "job_1_a", conversation := some [⟨"Speaker1", "Hi"⟩]
        title := none, voice1 := "", voice2 := ""
        uploadToMinIO := false }
      (.ok "QUJD") (.error "boom") =
    approvePOST
      { appUrl := none, openRouterKey := none, openaiKey := none
        minioAccessKey := none, minioSecretKey := none
        minioEndpoint := none, minioPort := none, minioUseSSL := none
        minioBucket := none }
      { jobId := "job_1_a", conversation := some [⟨"Speaker1", "Hi"⟩]
        title := none, voice1 := "", voice2 := ""
        uploadToMinIO := false }
      (.ok "QUJD") (.ok ⟨true, some (.direct "http://x/y"), none⟩) ∧
    ∃ r, (approvePOST
      { appUrl := none, openRouterKey := none, openaiKey := none
        minioAccessKey := none, minioSecretKey := none
        minioEndpoint := none, minioPort := none, minioUseSSL := none
        minioBucket := none }
      { jobId := "job_1_a", conversation := some [⟨"Speaker1", "Hi"⟩]
        title := none, voice1 := "", voice2 := ""
        uploadToMinIO := false }
      (.ok "QUJD") (.error "boom")).1 = .ok r ∧
      r.minioUrl = none ∧
      r.downloadUrl = localDownloadUrl
        { appUrl := none, openRouterKey := none, openaiKey := none
          minioAccessKey := none, minioSecretKey := none
          minioEndpoint := none, minioPort := none, minioUseSSL := none
          minioBucket := none } "job_1_a" ∧
      strContains r.downloadUrl "job_1_a" = true :=
  approvePOST_no_upload _ _ "QUJD" (.error "boom")
    (.ok ⟨true, some (.direct "http://x/y"), none⟩) [⟨"Speaker1", "Hi"⟩]
    rfl (by decide) (by decide) rfl

/-- The upload branch of the approve handler in closed form: once
validation and dialogue generation pass with `uploadToMinIO` set, the
response is the success record whose `minioUrl` is the URL extracted from
the remote outcome and whose `downloadUrl` prefers it via `||`. -/
theorem approvePOST_upload_branch (env : Env) (req : ApproveRequest)
    (audio : String) (minioStep : Except String MinioResult)
    (conv : List Turn) (mu : Option String)
    (hc : req.conversation = some conv) (hne : conv ≠ [])
    (hj : req.jobId ≠ "") (hup : req.uploadToMinIO = true)
    (hmu : (match minioStep with
      | .error _ => (none : Option String)
      | .ok m =>
        if m.success then m.url.map IssuedUrl.urlString else none) = mu) :
    (approvePOST env req (.ok audio) minioStep).1 =
      .ok { jobId := req.jobId
            downloadUrl := if mu.getD "" = ""
              then localDownloadUrl env req.jobId else mu.getD ""
            minioUrl := mu
            filename := minioFilename (envOr req.title "podcast") req.jobId
            message := "Audio generated successfully" } := by
  have hie : conv.isEmpty = false := by
    cases conv with
    | nil => exact absurd rfl hne
    | cons a t => rfl
  simp only [approvePOST, hc, hie, hj, hup]
  rw [hmu]
  cases mu with
  | none => simp
  | some u => simp

/-- C3: an approve call with `uploadToMinIO = true` in which the remote
store fails in any way — the helper returns `success: false` (missing
credentials, connectivity, auth, bucket or upload failure) or even throws —
still produces the HTTP-200 success response, with `minioUrl = null` and
the local download endpoint as `downloadUrl`; the local artifact write is
the same as under any other remote outcome. -/
theorem approvePOST_remote_failure_nonfatal (env : Env)
    (req : ApproveRequest) (audio : String)
    (minioStep : Except String MinioResult) (conv : List Turn)
    (hc : req.conversation = some conv) (hne : conv ≠ [])
    (hj : req.jobId ≠ "") (hup : req.uploadToMinIO = true)
    (hfail : (∃ e, minioStep = .error e) ∨
      (∃ mres, minioStep = .ok mres ∧ mres.success = false)) :
    (∃ r, (approvePOST env req (.ok audio) minioStep).1 = .ok r ∧
      r.minioUrl = none ∧
      r.downloadUrl = localDownloadUrl env req.jobId) ∧
    (∀ m2, (approvePOST env req (.ok audio) minioStep).2.localWritten =
      (approvePOST env req (.ok audio) m2).2.localWritten) ∧
    (approvePOST env req (.ok audio) minioStep).2.localWritten =
      some (minioFilename (envOr req.title "podcast") req.jobId,
        base64Payload audio) := by
  have hie : conv.isEmpty = false := by
    cases conv with
    | nil => exact absurd rfl hne
    | cons a t => rfl
  have hurl : (match minioStep with
      | .error _ => (none : Option String)
      | .ok mres =>
        if mres.success then mres.url.map IssuedUrl.urlString
        else none) = none := by
    rcases hfail with ⟨e, he⟩ | ⟨mres, hm, hs⟩
    · rw [he]
    · rw [hm]; simp [hs]
  have h := approvePOST_upload_branch env req audio minioStep conv
    none hc hne hj hup hurl
  refine ⟨⟨_, h, rfl, by simp⟩, ?_, ?_⟩
  · intro m2
    cases m2 with
    | error e => simp [approvePOST, hc, hie, hj, hup]
    | ok mres => simp [approvePOST, hc, hie, hj, hup]
  · simp [approvePOST, hc, hie, hj, hup]

/-- Witness for C3: a throwing remote store on a one-turn conversation. -/
theorem approvePOST_remote_failure_nonfatal_witness :
    (∃ r, (approvePOST
      { appUrl := none, openRouterKey := none, openaiKey := none
        minioAccessKey := none, minioSecretKey := none
        minioEndpoint := none, minioPort := none, minioUseSSL := none
        minioBucket := none }
      { jobId := "job_1_a", conversation := some [⟨"Speaker1", "Hi"⟩]
        title := some "My Title", voice1 := "", voice2 := ""
        uploadToMinIO := true }
      (.ok "QUJD") (.error "connect ECONNREFUSED")).1 = .ok r ∧
      r.minioUrl = none ∧
      r.downloadUrl = localDownloadUrl
        { appUrl := none, openRouterKey := none, openaiKey := none
          minioAccessKey := none, minioSecretKey := none
          minioEndpoint := none, minioPort := none, minioUseSSL := none
          minioBucket := none } "job_1_a") ∧
    (∀ m2, (approvePOST
      { appUrl := none, openRouterKey := none, openaiKey := none
        minioAccessKey := none, minioSecretKey := none
        minioEndpoint := none, minioPort := none, minioUseSSL := none
        minioBucket := none }
      { jobId := "job_1_a", conversation := some [⟨"Speaker1", "Hi"⟩]
        title := some "My Title", voice1 := "", voice2 := ""
        uploadToMinIO := true }
      (.ok "QUJD") (.error "connect ECONNREFUSED")).2.localWritten =
      (approvePOST
      { appUrl := none, openRouterKey := none, openaiKey := none
        minioAccessKey := none, minioSecretKey := none
        minioEndpoint := none, minioPort := none, minioUseSSL := none
        minioBucket := none }
      { jobId := "job_1_a", conversation := some [⟨"Speaker1", "Hi"⟩]
        title := some "My Title", voice1 := "", voice2 := ""
        uploadToMinIO := true }
      (.ok "QUJD") m2).2.localWritten) ∧
    (approvePOST
      { appUrl := none, openRouterKey := none, openaiKey := none
        minioAccessKey := none, minioSecretKey := none
        minioEndpoint := none, minioPort := none, minioUseSSL := none
        minioBucket := none }
      { jobId := "job_1_a", conversation := some [⟨"Speaker1", "Hi"⟩]
        title := some "My Title", voice1 := "", voice2 := ""
        uploadToMinIO := true }
      (.ok "QUJD") (.error "connect ECONNREFUSED")).2.localWritten =
      some (minioFilename (envOr (some "My Title") "podcast") "job_1_a",
        base64Payload "QUJD") :=
  approvePOST_remote_failure_nonfatal _ _ "QUJD"
    (.error "connect ECONNREFUSED") [⟨"Speaker1", "Hi"⟩] rfl (by decide)
    (by decide) rfl (Or.inl ⟨"connect ECONNREFUSED", rfl⟩)

/-- C10: when the remote upload succeeds and yields a (non-empty) URL the
approve response's `downloadUrl` is that remote URL and `minioUrl` echoes
it; and whenever a success response has `minioUrl = null` its
`downloadUrl` is the local download endpoint — the remote URL is preferred
over the local one. -/
theorem approvePOST_prefers_remote_url (env : Env) (req : ApproveRequest)
    (audio : String) (mres : MinioResult) (iu : IssuedUrl)
    (conv : List Turn) (hc : req.conversation = some conv)
    (hne : conv ≠ []) (hj : req.jobId ≠ "")
    (hup : req.uploadToMinIO = true) (hs : mres.success = true)
    (hu : mres.url = some iu) (hnn : iu.urlString ≠ "") :
    (∃ r, (approvePOST env req (.ok audio) (.ok mres)).1 = .ok r ∧
      r.minioUrl = some iu.urlString ∧
      r.downloadUrl = iu.urlString) ∧
    (∀ m2 r2, (approvePOST env req (.ok audio) m2).1 = .ok r2 →
      r2.minioUrl = none →
      r2.downloadUrl = localDownloadUrl env req.jobId) := by
  have hie : conv.isEmpty = false := by
    cases conv with
    | nil => exact absurd rfl hne
    | cons a t => rfl
  constructor
  · have h := approvePOST_upload_branch env req audio (.ok mres) conv
      (some iu.urlString) hc hne hj hup (by simp [hs, hu])
    refine ⟨_, h, rfl, ?_⟩
    simp [hnn]
  · intro m2 r2 hok hnone
    cases m2 with
    | error e =>
      have h := approvePOST_upload_branch env req audio (.error e) conv
        none hc hne hj hup rfl
      rw [h] at hok
      simp only [ApproveResult.ok.injEq] at hok
      subst hok
      simp
    | ok m =>
      by_cases hs2 : m.success = true
      · cases hu2 : m.url with
        | none =>
          have h := approvePOST_upload_branch env req audio (.ok m) conv
            none hc hne hj hup (by simp [hs2, hu2])
          rw [h] at hok
          simp only [ApproveResult.ok.injEq] at hok
          subst hok
          simp
        | some iu2 =>
          have h := approvePOST_upload_branch env req audio (.ok m) conv
            (some iu2.urlString) hc hne hj hup (by simp [hs2, hu2])
          rw [h] at hok
          simp only [ApproveResult.ok.injEq] at hok
          subst hok
          simp at hnone
      · have hs3 : m.success = false := by
          simpa using hs2
        have h := approvePOST_upload_branch env req audio (.ok m) conv
          none hc hne hj hup (by simp [hs3])
        rw [h] at hok
        simp only [ApproveResult.ok.injEq] at hok
        subst hok
        simp

/-- Witness for C10: a successful upload with a concrete direct URL. -/
theorem approvePOST_prefers_remote_url_witness :
    (∃ r, (approvePOST
      { appUrl := none, openRouterKey := none, openaiKey := none
        minioAccessKey := none, minioSecretKey := none
        minioEndpoint := none, minioPort := none, minioUseSSL := none
        minioBucket := none }
      { jobId := "job_1_a", conversation := some [⟨"Speaker1", "Hi"⟩]
        title := none, voice1 := "", voice2 := ""
        uploadToMinIO := true }
      (.ok "QUJD")
      (.ok ⟨true, some (.direct "https://host:443/podcast/f.mp3"),
        none⟩)).1 = .ok r ∧
      r.minioUrl = some (IssuedUrl.direct
        "https://host:443/podcast/f.mp3").urlString ∧
      r.downloadUrl = (IssuedUrl.direct
        "https://host:443/podcast/f.mp3").urlString) ∧
    (∀ m2 r2, (approvePOST
      { appUrl := none, openRouterKey := none, openaiKey := none
        minioAccessKey := none, minioSecretKey := none
        minioEndpoint := none, minioPort := none, minioUseSSL := none
        minioBucket := none }
      { jobId := "job_1_a", conversation := some [⟨"Speaker1", "Hi"⟩]
        title := none, voice1 := "", voice2 := ""
        uploadToMinIO := true }
      (.ok "QUJD") m2).1 = .ok r2 →
      r2.minioUrl = none →
      r2.downloadUrl = localDownloadUrl
        { appUrl := none, openRouterKey := none, openaiKey := none
          minioAccessKey := none, minioSecretKey := none
          minioEndpoint := none, minioPort := none, minioUseSSL := none
          minioBucket := none } "job_1_a") :=
  approvePOST_prefers_remote_url _ _ "QUJD"
    ⟨true, some (.direct "https://host:443/podcast/f.mp3"), none⟩
    (.direct "https://host:443/podcast/f.mp3") [⟨"Speaker1", "Hi"⟩]
    rfl (by decide) (by decide) rfl rfl rfl (by decide)

/-- The characters of a minted job id: the `job_` prefix, the decimal
digits of the timestamp, an underscore, and the random suffix. -/
theorem mintJobId_data (now : Nat) (rand : String) :
    (mintJobId now rand).data =
      'j' :: 'o' :: 'b' :: '_' ::
        (Nat.toDigits 10 now ++ '_' :: rand.data) := by
  show ((("job_" ++ Nat.repr now) ++ "_") ++ rand).data = _
  simp only [String.data_append, List.append_assoc]
  rfl

/-- A minted job id matches `job_<digits>_<alnum>` whenever the random
suffix is a non-empty string of base-36 characters. -/
theorem jobIdPattern_mint (now : Nat) (rand : String)
    (hr1 : rand.data ≠ []) (hr2 : rand.data.all isBase36Char = true) :
    jobIdPattern (mintJobId now rand) = true := by
  rw [jobIdPattern, mintJobId_data]
  have htake : (Nat.toDigits 10 now ++ '_' :: rand.data).takeWhile
      isDigitChar = Nat.toDigits 10 now := by
    rw [takeWhile_append_all isDigitChar _ _ (toDigits_all_digits now)]
    simp [List.takeWhile_cons, isDigitChar]
  have hdrop : (Nat.toDigits 10 now ++ '_' :: rand.data).dropWhile
      isDigitChar = '_' :: rand.data := by
    rw [dropWhile_append_all isDigitChar _ _ (toDigits_all_digits now)]
    simp [List.dropWhile_cons, isDigitChar]
  cases hD : Nat.toDigits 10 now with
  | nil => exact absurd hD (toDigits_ne_nil now)
  | cons a0 t0 =>
    cases hR : rand.data with
    | nil => exact absurd hR hr1
    | cons c0 s0 =>
      rw [hR] at htake hdrop
      rw [hD] at htake hdrop
      simp only [jobIdPatternL, htake, hdrop]
      rw [hR] at hr2
      simp [hr2]

/-- C8: a valid `receive` call returns a non-empty job id matching
`job_<digits>_<alnum>`; with `language = "pl"` supplied, the next-step body
echoes `"pl"`; the transcript is echoed unmodified and the next-step body
carries the same job id.  (No generation call exists in this handler: the
response is a pure function of the request, the environment and the two
id oracles `Date.now()` / `Math.random()`, the latter assumed to produce a
non-empty base-36 suffix.) -/
theorem receivePOST_spec (env : Env) (req : ReceiveRequest) (now : Nat)
    (rand : String) (ht : req.transcript ≠ "")
    (hr1 : rand.data ≠ []) (hr2 : rand.data.all isBase36Char = true) :
    ∃ r, receivePOST env req now rand = .ok r ∧
      r.jobId ≠ "" ∧
      jobIdPattern r.jobId = true ∧
      (req.language = some "pl" → r.nextStep.body.language = "pl") ∧
      r.nextStep.body.transcript = req.transcript ∧
      r.nextStep.body.jobId = r.jobId := by
  have hjne : mintJobId now rand ≠ "" := by
    intro h
    have hd := mintJobId_data now rand
    rw [h] at hd
    exact List.noConfusion hd
  refine ⟨{ jobId := mintJobId now rand
            message := "Transcript received successfully"
            language := match req.language with
              | none => "en"
              | some l => if l ≠ "" && validLanguages.contains l then l
                else "en"
            nextStep :=
              { url := envOr env.appUrl "http://localhost:3000" ++
                  "/api/webhook/process"
                method := "POST"
                body := { jobId := mintJobId now rand
                          transcript := req.transcript
                          title := envOr req.title "Untitled Podcast"
                          language := match req.language with
                            | none => "en"
                            | some l => if l ≠ "" &&
                                validLanguages.contains l then l else "en"
                          metadata := req.metadata.getD [] } } },
    ?_, hjne, jobIdPattern_mint now rand hr1 hr2, ?_, rfl, rfl⟩
  · simp [receivePOST, ht]
  · intro hl
    rw [hl]
    rfl

/-- Witness for C8 at the spec's concrete scenario
`{transcript: "Hello world", language: "pl"}` with concrete id oracles. -/
theorem receivePOST_spec_witness :
    ∃ r, receivePOST
        { appUrl := none, openRouterKey := none, openaiKey := none
          minioAccessKey := none, minioSecretKey := none
          minioEndpoint := none, minioPort := none, minioUseSSL := none
          minioBucket := none }
        { transcript := "Hello world", title := none
          language := some "pl", metadata := none }
        1700000000000 "k3j9" = .ok r ∧
      r.jobId ≠ "" ∧
      jobIdPattern r.jobId = true ∧
      ((some "pl" : Option String) = some "pl" →
        r.nextStep.body.language = "pl") ∧
      r.nextStep.body.transcript = "Hello world" ∧
      r.nextStep.body.jobId = r.jobId :=
  receivePOST_spec _ _ 1700000000000 "k3j9" (by decide) (by decide)
    (by decide)

end AiPodcast
